import Mathlib

/-!
# Verification of the wear-a-hat attachment manager (`src/yunjis-crown/src/app.ts`)

Shallow embedding of the single source file `app.ts`.  JavaScript objects used
as string-keyed dictionaries (`HatDatabase`, `attachedHats`) are embedded as
association lists `List (String × α)` with JS semantics for property read,
property write and `delete`.  Host scene actors are identified by natural
numbers; the calls the code makes into the host runtime (`Actor.destroy`,
`Actor.CreateFromLibrary`) are recorded as an effect trace.

A structural fact about the source drives much of what follows: in `wearHat`
(lines 176-233) the `if (hatId == "clear!")` block opened at line 178 is only
closed by the brace at line 232, so the whole attach logic (lines 184-231)
sits inside that block *after* the `return` of line 182 and is unreachable.
The file's three final braces close, in order, the `if`, the method and the
class, so the file parses; the dead code is embedded separately below as
`wearHatAttachUnreachable`.
-/

/-- A 3-component vector `{x, y, z}` of JS numbers, embedded over `ℚ`
(every numeric literal in the source is a small decimal). -/
structure Vec3 where
  x : ℚ
  y : ℚ
  z : ℚ
deriving DecidableEq, Repr

/-- Lines 11-28: the `HatDescriptor` record.  The TS type annotation declares
all four fields, but the JSON entries may omit any of them and the code guards
every access with a truthiness test, so each field is embedded as an `Option`
(`none` = absent/undefined; an object, even all-zero, is always truthy). -/
structure HatDescriptor where
  resourceId : Option String
  scale : Option Vec3
  rotation : Option Vec3
  position : Option Vec3
deriving DecidableEq, Repr

/-- JS property read `m[k]` on a string-keyed object: `some` the stored value,
`none` for undefined (key absent). -/
def objGet {α : Type} : List (String × α) → String → Option α
  | [], _ => none
  | kv :: rest, k => if kv.1 = k then some kv.2 else objGet rest k

/-- JS property write `m[k] = v`: overwrite in place if the key is present,
append otherwise (JS objects keep insertion order for string keys). -/
def objSet {α : Type} : List (String × α) → String → α → List (String × α)
  | [], k, v => [(k, v)]
  | kv :: rest, k, v => if kv.1 = k then (k, v) :: rest else kv :: objSet rest k v

/-- JS `delete m[k]`: remove the binding for `k` (a no-op when absent). -/
def objDelete {α : Type} : List (String × α) → String → List (String × α)
  | [], _ => []
  | kv :: rest, k => if kv.1 = k then objDelete rest k else kv :: objDelete rest k

/-- `Object.assign(target, src)` (lines 56, 60, 64): copy every own property
of `src` onto `target`, left to right, later writes overwriting earlier
bindings. -/
def objectAssign {α : Type} (target src : List (String × α)) : List (String × α) :=
  src.foldl (fun acc kv => objSet acc kv.1 kv.2) target

/-- Constructor lines 54-67: `this.HatDatabase = Object.assign({}, kitJson,
defaultsJson)` — the kit-specific JSON is applied to an empty object first and
the shared `defaults.json` second.  The two JSON files are parameters (they
are configuration data, not part of the source file). -/
def loadHatDatabase (kitData defaults : List (String × HatDescriptor)) :
    List (String × HatDescriptor) :=
  objectAssign (objectAssign [] kitData) defaults

/-- The mutable state of a `WearAHat` instance that the event handlers touch:
the catalog loaded at session start (never written afterwards) and the
`attachedHats` dictionary from user id to the worn actor (line 37).  Actors
are identified by `ℕ`. -/
structure AppState where
  hatDatabase : List (String × HatDescriptor)
  attachedHats : List (String × ℕ)
deriving DecidableEq, Repr

/-- Transform resolved at attach time (lines 192-194); the rotation is kept in
degrees, exactly the Euler angles fed to `Quaternion.FromEulerAngles`. -/
structure AttachTransform where
  position : Vec3
  scale : Vec3
  rotationDeg : Vec3
deriving DecidableEq, Repr

/-- Calls into the host runtime recorded by the handlers. -/
inductive Effect where
  | destroyActor (id : ℕ)
  | createFromLibrary (id : ℕ) (resourceId : Option String)
      (t : AttachTransform) (userId : String)
deriving DecidableEq, Repr

/-- Lines 192-194 of the attach block: each transform component falls back to
its default independently (`hatRecord.position ? hatRecord.position : {...}`
and the analogous ternaries for scale and rotation). -/
def resolveAttachTransform (hatRecord : HatDescriptor) : AttachTransform :=
  { position := match hatRecord.position with
      | some p => p
      | none => ⟨0, 0, 0⟩
    scale := match hatRecord.scale with
      | some v => v
      | none => ⟨3/2, 3/2, 3/2⟩
    rotationDeg := match hatRecord.rotation with
      | some r => r
      | none => ⟨0, 180, 0⟩ }

/-- Lines 176-233, `wearHat(hatId, userId)`, embedded as the code actually
executes: when `hatId == "clear!"` destroy the currently worn actor (if any),
`delete` the map entry and return; for every other id the body does nothing,
because the rest of the method sits inside the clear branch after its
`return` (the brace opened at line 178 only closes at line 232). -/
def wearHat (hatId userId : String) (s : AppState) : AppState × List Effect :=
  if hatId = "clear!" then
    match objGet s.attachedHats userId with
    | some actorId =>
        ({ s with attachedHats := objDelete s.attachedHats userId },
         [Effect.destroyActor actorId])
    | none =>
        ({ s with attachedHats := objDelete s.attachedHats userId }, [])
  else
    (s, [])

/-- Lines 184-231 of `wearHat`: the attach logic, embedded separately because
control can never reach it (it follows the `return` inside the clear branch).
It records what the block would do: destroy and remove any current hat, look
up the record, resolve the transform and create the attached actor
(`freshId` stands for the host-chosen actor id).  When the catalog lookup
yields undefined, reading `.position` on line 192 would throw a TypeError
*after* the destroy/`delete` already ran, so that outcome is `Except.error`
carrying the state and effects at the throw point. -/
def wearHatAttachUnreachable (freshId : ℕ) (hatId userId : String) (s : AppState) :
    Except (AppState × List Effect) (AppState × List Effect) :=
  let cleared : AppState × List Effect :=
    match objGet s.attachedHats userId with
    | some actorId =>
        ({ s with attachedHats := objDelete s.attachedHats userId },
         [Effect.destroyActor actorId])
    | none =>
        ({ s with attachedHats := objDelete s.attachedHats userId }, [])
  match objGet s.hatDatabase hatId with
  | none => Except.error cleared
  | some hatRecord =>
      Except.ok
        ({ cleared.1 with
            attachedHats := objSet cleared.1.attachedHats userId freshId },
         cleared.2 ++
           [Effect.createFromLibrary freshId hatRecord.resourceId
              (resolveAttachTransform hatRecord) userId])

/-- Lines 86-91, `userLeft(user)`: destroy the user's hat if worn, then
`delete` the map entry. -/
def userLeft (userId : String) (s : AppState) : AppState × List Effect :=
  match objGet s.attachedHats userId with
  | some actorId =>
      ({ s with attachedHats := objDelete s.attachedHats userId },
       [Effect.destroyActor actorId])
  | none =>
      ({ s with attachedHats := objDelete s.attachedHats userId }, [])

/-- Modelled from the spec: `clear(userId)` of §4.3 — "if an Attachment exists
for `userId`, destroy its host-scene object and remove the mapping entry;
idempotent — clearing a user with no Attachment is a no-op, not an error".
Used as the specification side of the refinement claims about the clear
paths. -/
def spec_clear (userId : String) (s : AppState) : AppState × List Effect :=
  match objGet s.attachedHats userId with
  | some actorId =>
      ({ s with attachedHats := objDelete s.attachedHats userId },
       [Effect.destroyActor actorId])
  | none => (s, [])

/-- The externally delivered events the handlers react to: a menu click
(wired to `wearHat` at line 165) and a user departure (wired to `userLeft`
at line 71). -/
inductive AppEvent where
  | select (hatId userId : String)
  | depart (userId : String)
deriving DecidableEq, Repr

/-- Dispatch one host event to its handler. -/
def stepEvent (s : AppState) : AppEvent → AppState × List Effect
  | AppEvent.select hatId userId => wearHat hatId userId s
  | AppEvent.depart userId => userLeft userId s

/-- Run a finite event sequence, threading the state. -/
def runEvents (s : AppState) : List AppEvent → AppState
  | [] => s
  | e :: es => runEvents (stepEvent s e).1 es

/-- Session start state: the loaded catalog, nobody wearing anything
(`attachedHats = {}`, line 37). -/
def initialState (db : List (String × HatDescriptor)) : AppState :=
  { hatDatabase := db, attachedHats := [] }

/-- Line 110-112: `regex.test(hatId)` for `regex = /!$/` — true exactly when
the identifier's last character is `'!'` (embedded over the character list so
it evaluates in the kernel). -/
def endsWithBang (hatId : String) : Bool :=
  hatId.data.getLast? == some '!'

/-- The two shapes of menu button `showHatMenu` creates (lines 106-160): a
clickable artifact loaded from the library resource (lines 115-127), or a
0.3-cube primitive named after the hat id and parented to the menu container
(lines 130-143).  Rotation is kept in degrees as fed to
`Quaternion.FromEulerAngles`. -/
inductive MenuButton where
  | artifact (resourceId : String) (position : Vec3) (rotationDeg : Vec3) (scale : Vec3)
  | box (name : String) (position : Vec3)
deriving DecidableEq, Repr

/-- The position the button was created at. -/
def MenuButton.pos : MenuButton → Vec3
  | MenuButton.artifact _ p _ _ => p
  | MenuButton.box _ p => p

/-- The x coordinate of the button. -/
def MenuButton.xPos (b : MenuButton) : ℚ := b.pos.x

/-- One menu item: the button actor plus the hat id captured by the
`onClick` handler at line 165 (`(userId) => this.wearHat(hatId, userId)`). -/
structure MenuEntry where
  button : MenuButton
  onClickHat : String
deriving DecidableEq, Repr

/-- Lines 106-160: build one button for the entry `(hatId, hatRecord)` at the
current layout offset `x`.  Resource-backed entries get the artifact at
`{x, y:1, z:0}`, with descriptor rotation/scale only when
`regex.test(hatId) && hatRecord.rotation` (resp. `.scale`) holds, else zero
rotation and 3×3×3 scale; entries without resource get the cube at
`{x, y:0, z:0}`. -/
def menuButton (hatId : String) (hatRecord : HatDescriptor) (x : ℚ) : MenuButton :=
  match hatRecord.resourceId with
  | some rid =>
      let rotation : Vec3 :=
        match endsWithBang hatId, hatRecord.rotation with
        | true, some r => r
        | _, _ => ⟨0, 0, 0⟩
      let scale : Vec3 :=
        match endsWithBang hatId, hatRecord.scale with
        | true, some v => v
        | _, _ => ⟨3, 3, 3⟩
      MenuButton.artifact rid ⟨x, 1, 0⟩ rotation scale
  | none => MenuButton.box hatId ⟨x, 0, 0⟩

/-- Lines 99-168 of `showHatMenu`, from layout offset `x`: one entry per
catalog key in iteration order, `x` advanced by 1.5 after each entry
(line 167). -/
def showHatMenuFrom : List (String × HatDescriptor) → ℚ → List MenuEntry
  | [], _ => []
  | (hatId, hatRecord) :: rest, x =>
      { button := menuButton hatId hatRecord x, onClickHat := hatId } ::
        showHatMenuFrom rest (x + 3/2)

/-- Lines 96-169, `showHatMenu`: iterate `Object.keys(this.HatDatabase)`
starting at `x = 0`. -/
def showHatMenu (db : List (String × HatDescriptor)) : List MenuEntry :=
  showHatMenuFrom db 0

/-! ## Concrete data used to instantiate the theorems -/

/-- A wearable with only a resource, all transform fields omitted. -/
def hatRecordA : HatDescriptor :=
  { resourceId := some "artifact:hatA", scale := none, rotation := none, position := none }

/-- A command-style record carrying explicit scale, rotation and position. -/
def hatRecordB : HatDescriptor :=
  { resourceId := some "artifact:clearCmd", scale := some ⟨2, 2, 2⟩,
    rotation := some ⟨10, 20, 30⟩, position := some ⟨5, 5, 5⟩ }

/-- A second wearable, distinct from the others. -/
def hatRecordC : HatDescriptor :=
  { resourceId := some "artifact:hatC", scale := some ⟨1, 1, 1⟩,
    rotation := none, position := none }

/-- A structural entry with no visual resource (menu renders it as a cube). -/
def hatRecordD : HatDescriptor :=
  { resourceId := none, scale := none, rotation := none, position := none }

/-- A small catalog with two real wearables and the clear command. -/
def exampleDb : List (String × HatDescriptor) :=
  [("hat1", hatRecordA), ("hat2", hatRecordC), ("clear!", hatRecordB)]

/-- Shared-defaults set for the catalog-merge example (`{a:.., b:..}`). -/
def defaultsExample : List (String × HatDescriptor) :=
  [("a", hatRecordA), ("b", hatRecordB)]

/-- Kit-specific set for the catalog-merge example (`{b:.., c:..}`),
colliding with the defaults on `"b"`. -/
def kitExample : List (String × HatDescriptor) :=
  [("b", hatRecordC), ("c", hatRecordD)]

/-- A state in which user `"u2"` wears actor `7` and nobody else wears
anything. -/
def exSt : AppState :=
  { hatDatabase := exampleDb, attachedHats := [("u2", 7)] }

/-! ## Lemmas about the JS-object primitives -/

theorem objGet_objDelete_self {α : Type} (m : List (String × α)) (k : String) :
    objGet (objDelete m k) k = none := by
  induction m with
  | nil => rfl
  | cons kv rest ih =>
      by_cases h : kv.1 = k
      · simpa [objDelete, h] using ih
      · simp [objDelete, objGet, h, ih]

theorem objDelete_of_objGet_none {α : Type} (m : List (String × α)) (k : String)
    (h : objGet m k = none) : objDelete m k = m := by
  induction m with
  | nil => rfl
  | cons kv rest ih =>
      by_cases hk : kv.1 = k
      · simp [objGet, hk] at h
      · simp only [objGet, if_neg hk] at h
        simp [objDelete, hk, ih h]

theorem objDelete_objDelete_self {α : Type} (m : List (String × α)) (k : String) :
    objDelete (objDelete m k) k = objDelete m k :=
  objDelete_of_objGet_none _ _ (objGet_objDelete_self m k)

theorem objDelete_sublist {α : Type} (m : List (String × α)) (k : String) :
    List.Sublist (objDelete m k) m := by
  induction m with
  | nil => simp [objDelete]
  | cons kv rest ih =>
      by_cases h : kv.1 = k
      · simpa [objDelete, h] using ih.cons kv
      · simpa [objDelete, h] using ih.cons₂ kv

theorem objGet_objSet_self {α : Type} (m : List (String × α)) (k : String) (v : α) :
    objGet (objSet m k v) k = some v := by
  induction m with
  | nil => simp [objSet, objGet]
  | cons kv rest ih =>
      by_cases h : kv.1 = k
      · simp [objSet, objGet, h]
      · simp [objSet, objGet, h, ih]

theorem objGet_objSet_ne {α : Type} (m : List (String × α)) (k kq : String) (v : α)
    (h : kq ≠ k) : objGet (objSet m k v) kq = objGet m kq := by
  induction m with
  | nil => simp [objSet, objGet, Ne.symm h]
  | cons kv rest ih =>
      by_cases hk : kv.1 = k
      · subst hk
        simp [objSet, objGet, Ne.symm h]
      · simp [objSet, objGet, hk, ih]

theorem objGet_none_of_not_mem_keys {α : Type} (m : List (String × α)) (k : String)
    (h : k ∉ m.map Prod.fst) : objGet m k = none := by
  induction m with
  | nil => rfl
  | cons kv rest ih =>
      simp only [List.map_cons, List.mem_cons] at h
      push_neg at h
      simp [objGet, Ne.symm h.1, ih h.2]

theorem objSet_of_objGet_none {α : Type} (m : List (String × α)) (k : String) (v : α)
    (h : objGet m k = none) : objSet m k v = m ++ [(k, v)] := by
  induction m with
  | nil => rfl
  | cons kv rest ih =>
      by_cases hk : kv.1 = k
      · simp [objGet, hk] at h
      · simp only [objGet, if_neg hk] at h
        simp [objSet, hk, ih h]

theorem objGet_append {α : Type} (t u : List (String × α)) (k : String) :
    objGet (t ++ u) k =
      match objGet t k with
      | some v => some v
      | none => objGet u k := by
  induction t with
  | nil => simp [objGet]
  | cons kv rest ih =>
      by_cases hk : kv.1 = k <;> simp [objGet, hk, ih]

theorem objectAssign_of_disjoint {α : Type} (src : List (String × α)) :
    ∀ target : List (String × α), (∀ kv ∈ src, objGet target kv.1 = none) →
      (src.map Prod.fst).Nodup → objectAssign target src = target ++ src := by
  induction src with
  | nil => intro t _ _; simp [objectAssign]
  | cons kv rest ih =>
      intro t hdisj hnd
      simp only [List.map_cons, List.nodup_cons] at hnd
      have hset : objSet t kv.1 kv.2 = t ++ [kv] := by
        simpa using objSet_of_objGet_none t kv.1 kv.2 (hdisj kv (by simp))
      have hrest : ∀ kv' ∈ rest, objGet (t ++ [kv]) kv'.1 = none := by
        intro kv' hmem
        rw [objGet_append, hdisj kv' (by simp [hmem])]
        have hne : kv.1 ≠ kv'.1 := by
          intro he
          exact hnd.1 (he ▸ List.mem_map_of_mem Prod.fst hmem)
        simp [objGet, hne]
      calc objectAssign t (kv :: rest)
          = objectAssign (objSet t kv.1 kv.2) rest := rfl
        _ = objectAssign (t ++ [kv]) rest := by rw [hset]
        _ = (t ++ [kv]) ++ rest := ih _ hrest hnd.2
        _ = t ++ kv :: rest := by simp

theorem objectAssign_nil_left {α : Type} (src : List (String × α))
    (h : (src.map Prod.fst).Nodup) : objectAssign [] src = src := by
  simpa using objectAssign_of_disjoint src [] (fun kv _ => rfl) h

theorem objGet_objectAssign {α : Type} (src : List (String × α)) :
    ∀ target : List (String × α), (src.map Prod.fst).Nodup → ∀ k,
      objGet (objectAssign target src) k =
        match objGet src k with
        | some v => some v
        | none => objGet target k := by
  induction src with
  | nil => intro t _ k; simp [objectAssign, objGet]
  | cons kv rest ih =>
      intro t hnd k
      simp only [List.map_cons, List.nodup_cons] at hnd
      have hstep : objectAssign t (kv :: rest) = objectAssign (objSet t kv.1 kv.2) rest := rfl
      rw [hstep, ih _ hnd.2 k]
      by_cases hk : kv.1 = k
      · have hrest : objGet rest k = none :=
          objGet_none_of_not_mem_keys rest k (hk ▸ hnd.1)
        simp [objGet, hk, hrest, objGet_objSet_self, hk ▸ objGet_objSet_self t kv.1 kv.2]
      · have hq : k ≠ kv.1 := fun he => hk he.symm
        rw [objGet_objSet_ne t kv.1 k kv.2 hq]
        cases hr : objGet rest k <;> simp [objGet, hk, hr]

/-! ## Lemmas about the event handlers -/

theorem wearHat_fst_attachedHats (hatId userId : String) (s : AppState) :
    (wearHat hatId userId s).1.attachedHats = s.attachedHats ∨
    (wearHat hatId userId s).1.attachedHats = objDelete s.attachedHats userId := by
  unfold wearHat
  by_cases h : hatId = "clear!"
  · rw [if_pos h]
    cases hg : objGet s.attachedHats userId <;> simp [hg]
  · rw [if_neg h]
    left
    rfl

theorem userLeft_fst_attachedHats (userId : String) (s : AppState) :
    (userLeft userId s).1.attachedHats = objDelete s.attachedHats userId := by
  unfold userLeft
  cases hg : objGet s.attachedHats userId <;> simp [hg]

theorem userLeft_of_objGet_none (userId : String) (s : AppState)
    (h : objGet s.attachedHats userId = none) : userLeft userId s = (s, []) := by
  unfold userLeft
  rw [h, objDelete_of_objGet_none _ _ h]

theorem objDelete_keys_nodup {α : Type} (m : List (String × α)) (k : String)
    (h : (m.map Prod.fst).Nodup) : ((objDelete m k).map Prod.fst).Nodup :=
  h.sublist ((objDelete_sublist m k).map Prod.fst)

theorem stepEvent_keys_nodup (s : AppState) (e : AppEvent)
    (h : (s.attachedHats.map Prod.fst).Nodup) :
    ((stepEvent s e).1.attachedHats.map Prod.fst).Nodup := by
  cases e with
  | select hatId userId =>
      rcases wearHat_fst_attachedHats hatId userId s with hw | hw <;>
        simp only [stepEvent] <;> rw [hw]
      · exact h
      · exact objDelete_keys_nodup _ _ h
  | depart userId =>
      simp only [stepEvent]
      rw [userLeft_fst_attachedHats]
      exact objDelete_keys_nodup _ _ h

theorem runEvents_keys_nodup (es : List AppEvent) (s : AppState)
    (h : (s.attachedHats.map Prod.fst).Nodup) :
    ((runEvents s es).attachedHats.map Prod.fst).Nodup := by
  induction es generalizing s with
  | nil => exact h
  | cons e es ih => exact ih _ (stepEvent_keys_nodup s e h)

theorem countP_key_le_one {α : Type} (m : List (String × α)) (u : String)
    (h : (m.map Prod.fst).Nodup) :
    m.countP (fun kv => kv.1 == u) ≤ 1 := by
  induction m with
  | nil => simp
  | cons kv rest ih =>
      simp only [List.map_cons, List.nodup_cons] at h
      rw [List.countP_cons]
      by_cases hk : kv.1 = u
      · have hz : rest.countP (fun kv => kv.1 == u) = 0 := by
          rw [List.countP_eq_zero]
          intro a ha
          simp only [beq_iff_eq]
          intro hau
          apply h.1
          rw [hk, ← hau]
          exact List.mem_map_of_mem Prod.fst ha
        simp [hz, hk]
      · simp [hk, ih h.2]

/-! ## Lemmas about the menu builder -/

theorem showHatMenuFrom_length (db : List (String × HatDescriptor)) :
    ∀ x : ℚ, (showHatMenuFrom db x).length = db.length := by
  induction db with
  | nil => intro x; rfl
  | cons kv rest ih =>
      intro x
      cases kv
      simp [showHatMenuFrom, ih]

theorem showHatMenuFrom_map_onClickHat (db : List (String × HatDescriptor)) :
    ∀ x : ℚ, (showHatMenuFrom db x).map MenuEntry.onClickHat = db.map Prod.fst := by
  induction db with
  | nil => intro x; rfl
  | cons kv rest ih =>
      intro x
      cases kv
      simp [showHatMenuFrom, ih]

theorem menuButton_xPos (hatId : String) (hatRecord : HatDescriptor) (x : ℚ) :
    (menuButton hatId hatRecord x).xPos = x := by
  unfold menuButton
  cases hr : hatRecord.resourceId <;>
    simp [hr, MenuButton.xPos, MenuButton.pos]

theorem showHatMenuFrom_get_xPos (db : List (String × HatDescriptor)) :
    ∀ (x : ℚ) (i : ℕ) (hi : i < (showHatMenuFrom db x).length),
      ((showHatMenuFrom db x).get ⟨i, hi⟩).button.xPos = x + 3/2 * i := by
  induction db with
  | nil =>
      intro x i hi
      simp [showHatMenuFrom] at hi
  | cons kv rest ih =>
      intro x i hi
      cases kv with
      | mk hatId hatRecord =>
          cases i with
          | zero => simpa [showHatMenuFrom] using menuButton_xPos hatId hatRecord x
          | succ n =>
              have hn : n < (showHatMenuFrom rest (x + 3/2)).length := by
                simpa [showHatMenuFrom] using Nat.lt_of_succ_lt_succ hi
              have := ih (x + 3/2) n hn
              simp only [showHatMenuFrom, List.get_cons_succ]
              rw [this]
              push_cast
              ring

/-! ## Claim theorems -/

/-- Claim C1 (code bug): the spec says `select(w, u)` on a real wearable
creates and stores an attachment, and that `select(w, u); select(w', u)`
leaves exactly one attachment for `u`.  The code never attaches anything:
with `"hat1"` and `"hat2"` both real wearables of the catalog, a fresh user
selecting them in sequence still has no attachment, because the whole attach
logic of `wearHat` sits inside the `if (hatId == "clear!")` block after its
`return` and is unreachable. -/
theorem C1_select_never_attaches :
    objGet exampleDb "hat1" = some hatRecordA ∧
    objGet exampleDb "hat2" = some hatRecordC ∧
    runEvents (initialState exampleDb)
        [AppEvent.select "hat1" "u1", AppEvent.select "hat2" "u1"] =
      initialState exampleDb ∧
    objGet (runEvents (initialState exampleDb)
        [AppEvent.select "hat1" "u1", AppEvent.select "hat2" "u1"]).attachedHats
        "u1" = none := by
  refine ⟨rfl, rfl, ?_, ?_⟩ <;> decide

/-- Claim C2: after processing any finite sequence of select, clear and
user-departure events from the initial empty state, every user is mapped to
at most one attachment (the `attachedHats` dictionary never holds two
bindings for one user id). -/
theorem C2_at_most_one_attachment (db : List (String × HatDescriptor))
    (es : List AppEvent) (u : String) :
    (runEvents (initialState db) es).attachedHats.countP (fun kv => kv.1 == u) ≤ 1 :=
  countP_key_le_one _ u
    (runEvents_keys_nodup es (initialState db) (by simp [initialState]))

/-- Claim C3 (counterexample): the claim says kit-specific entries win on key
collision, so defaults `{a:recA, b:recB}` merged with kit data
`{b:recC, c:recD}` should map `"b"` to the kit value `recC`.  The code runs
`Object.assign({}, kitJson, defaultsJson)` with the defaults applied last, so
the loaded catalog maps `"b"` to the defaults value `recB ≠ recC`. -/
theorem C3_kit_wins_counterexample :
    objGet (loadHatDatabase kitExample defaultsExample) "b" = some hatRecordB ∧
    hatRecordB ≠ hatRecordC := by
  constructor <;> decide

/-- Claim C3 (amended): the loaded catalog is the merge with the kit data
applied first and the shared defaults applied second, so on every key
collision the defaults entry wins and kit data fills the remaining keys;
concretely, defaults `{a:1, b:2}` merged with kit data `{b:3, c:4}` yields
`{a:1, b:2, c:4}`. -/
theorem C3_defaults_override (kitData defaults : List (String × HatDescriptor))
    (hk : (kitData.map Prod.fst).Nodup) (hd : (defaults.map Prod.fst).Nodup)
    (k : String) :
    objGet (loadHatDatabase kitData defaults) k =
      match objGet defaults k with
      | some v => some v
      | none => objGet kitData k := by
  unfold loadHatDatabase
  rw [objectAssign_nil_left kitData hk]
  have h := objGet_objectAssign defaults kitData hd k
  cases hg : objGet defaults k <;> rw [hg] at h <;> simpa using h

/-- Witness for C3_defaults_override at the concrete merge example: on the
colliding key `"b"` the defaults value wins, on the gap key `"c"` the kit
value fills in. -/
theorem C3_defaults_override_witness :
    objGet (loadHatDatabase kitExample defaultsExample) "b" = some hatRecordB ∧
    objGet (loadHatDatabase kitExample defaultsExample) "c" = some hatRecordD :=
  ⟨(C3_defaults_override kitExample defaultsExample (by decide) (by decide)
      "b").trans (by decide),
   (C3_defaults_override kitExample defaultsExample (by decide) (by decide)
      "c").trans (by decide)⟩

/-- Claim C4: for every user and every prior state, `select` of the
clear-command id (`wearHat "clear!"`) and `userLeft` both produce exactly the
state (and effects) of the spec's `clear`: destroy the worn attachment and
remove the mapping entry if present, do nothing otherwise. -/
theorem C4_clear_refines_spec (s : AppState) (u : String) :
    wearHat "clear!" u s = spec_clear u s ∧ userLeft u s = spec_clear u s := by
  constructor
  · unfold wearHat spec_clear
    rw [if_pos rfl]
    cases hg : objGet s.attachedHats u with
    | some a => rfl
    | none => rw [objDelete_of_objGet_none _ _ hg]
  · unfold userLeft spec_clear
    cases hg : objGet s.attachedHats u with
    | some a => rfl
    | none => rw [objDelete_of_objGet_none _ _ hg]

/-- Claim C5: a `select` whose id is absent from the catalog (and is not the
clear command) is rejected without crashing: the handler runs to completion,
the attachment mapping is unchanged, and no scene call (create or destroy) is
made. -/
theorem C5_unknown_wearable_rejected (hatId userId : String) (s : AppState)
    (habs : objGet s.hatDatabase hatId = none) (hne : hatId ≠ "clear!") :
    wearHat hatId userId s = (s, []) := by
  unfold wearHat
  rw [if_neg hne]

/-- Witness for C5_unknown_wearable_rejected: selecting the forged id
`"ghost"`, absent from the example catalog, from a state with a worn hat. -/
theorem C5_unknown_wearable_witness :
    wearHat "ghost" "u2" exSt = (exSt, []) :=
  C5_unknown_wearable_rejected "ghost" "u2" exSt (by decide) (by decide)

/-- Claim C6: `clear` (the `userLeft`/clear-branch logic) is idempotent —
running it a second time returns the once-cleared state unchanged with no
further destroy — and clearing a user with no attachment is a no-op, not an
error. -/
theorem C6_clear_idempotent (s : AppState) (u : String) :
    userLeft u (userLeft u s).1 = ((userLeft u s).1, []) ∧
    (objGet s.attachedHats u = none → userLeft u s = (s, [])) := by
  constructor
  · apply userLeft_of_objGet_none
    rw [userLeft_fst_attachedHats]
    exact objGet_objDelete_self s.attachedHats u
  · exact userLeft_of_objGet_none u s

/-- Witness for C6_clear_idempotent: double clear of the wearing user `"u2"`
and a no-op clear of the non-wearing user `"u1"` in the example state. -/
theorem C6_clear_idempotent_witness :
    userLeft "u2" (userLeft "u2" exSt).1 = ((userLeft "u2" exSt).1, []) ∧
    userLeft "u1" exSt = (exSt, []) :=
  ⟨(C6_clear_idempotent exSt "u2").1,
   (C6_clear_idempotent exSt "u1").2 (by decide)⟩

/-- Claim C7: the attach-time transform resolution of lines 192-194 defaults
each omitted component independently — position to the origin, scale to
1.5×1.5×1.5, rotation to (0,180,0) degrees — and takes every present
component from the descriptor. -/
theorem C7_attach_transform_defaults (d : HatDescriptor) :
    resolveAttachTransform d =
      { position := d.position.getD ⟨0, 0, 0⟩,
        scale := d.scale.getD ⟨3/2, 3/2, 3/2⟩,
        rotationDeg := d.rotation.getD ⟨0, 180, 0⟩ } := by
  rcases d with ⟨rid, sc, rot, pos⟩
  cases sc <;> cases rot <;> cases pos <;> rfl

/-- Claim C8: for every catalog the menu builder produces exactly one entry
per catalog key, in order, each entry's click handler bound to that entry's
wearable id, and the i-th entry (0-indexed) is laid out at x = 1.5·i. -/
theorem C8_menu_one_entry_per_key (db : List (String × HatDescriptor)) :
    (showHatMenu db).map MenuEntry.onClickHat = db.map Prod.fst ∧
    ∀ (i : ℕ) (hi : i < (showHatMenu db).length),
      ((showHatMenu db).get ⟨i, hi⟩).button.xPos = 3/2 * i := by
  constructor
  · exact showHatMenuFrom_map_onClickHat db 0
  · intro i hi
    have := showHatMenuFrom_get_xPos db 0 i hi
    simpa using this

/-- Witness for C8_menu_one_entry_per_key on the three-entry example catalog,
reading off the layout position of entry 2. -/
theorem C8_menu_witness :
    (showHatMenu exampleDb).map MenuEntry.onClickHat = exampleDb.map Prod.fst ∧
    ((showHatMenu exampleDb).get ⟨2, by decide⟩).button.xPos = 3/2 * 2 :=
  ⟨(C8_menu_one_entry_per_key exampleDb).1,
   (C8_menu_one_entry_per_key exampleDb).2 2 (by decide)⟩

/-- Claim C9 (counterexample): the claim says command entries (id ending in
`!`) use the descriptor's own position for their menu presentation.  The
command record `hatRecordB` carries position (5,5,5), yet its menu button is
created at the layout position `{x, y:1, z:0}` like every resource-backed
entry. -/
theorem C9_command_position_counterexample :
    endsWithBang "clear!" = true ∧
    hatRecordB.position = some ⟨5, 5, 5⟩ ∧
    (menuButton "clear!" hatRecordB 0).pos ≠ ⟨5, 5, 5⟩ := by
  refine ⟨rfl, rfl, ?_⟩
  decide

/-- Claim C9 (amended): for resource-backed entries the menu presentation
uses the descriptor's own scale and rotation only for command entries (id
ending in `!`, each component falling back independently when absent); every
non-command entry gets the fixed display scale (3,3,3) and zero rotation; and
the button position is the layout position `{x, y:1, z:0}` for every
resource-backed entry, command or not. -/
theorem C9_menu_transform_policy (hatId : String) (hatRecord : HatDescriptor)
    (rid : String) (x : ℚ) (hres : hatRecord.resourceId = some rid) :
    (menuButton hatId hatRecord x).pos = ⟨x, 1, 0⟩ ∧
    (endsWithBang hatId = false →
      menuButton hatId hatRecord x =
        MenuButton.artifact rid ⟨x, 1, 0⟩ ⟨0, 0, 0⟩ ⟨3, 3, 3⟩) ∧
    (endsWithBang hatId = true →
      menuButton hatId hatRecord x =
        MenuButton.artifact rid ⟨x, 1, 0⟩ (hatRecord.rotation.getD ⟨0, 0, 0⟩)
          (hatRecord.scale.getD ⟨3, 3, 3⟩)) := by
  unfold menuButton
  rw [hres]
  refine ⟨rfl, ?_, ?_⟩ <;> intro hcmd <;> rw [hcmd] <;>
    cases hatRecord.rotation <;> cases hatRecord.scale <;> rfl

/-- Witness for C9_menu_transform_policy: the non-command wearable `"hat2"`
(which carries its own scale) still presents at scale (3,3,3) with zero
rotation, and the command `"clear!"` presents with its own rotation and
scale. -/
theorem C9_menu_transform_policy_witness :
    menuButton "hat2" hatRecordC 0 =
      MenuButton.artifact "artifact:hatC" ⟨0, 1, 0⟩ ⟨0, 0, 0⟩ ⟨3, 3, 3⟩ ∧
    menuButton "clear!" hatRecordB (3/2) =
      MenuButton.artifact "artifact:clearCmd" ⟨3/2, 1, 0⟩
        (hatRecordB.rotation.getD ⟨0, 0, 0⟩) (hatRecordB.scale.getD ⟨3, 3, 3⟩) :=
  ⟨(C9_menu_transform_policy "hat2" hatRecordC "artifact:hatC" 0 rfl).2.1 (by decide),
   (C9_menu_transform_policy "clear!" hatRecordB "artifact:clearCmd" (3/2) rfl).2.2
     (by decide)⟩

/-- Claim C10: for every id other than the literal `"clear!"`, `wearHat`
leaves the state entirely unchanged and performs no scene creation or
destruction, because the attach logic is nested inside the clear branch after
its `return` statement and is unreachable. -/
theorem C10_wearHat_noop_for_nonclear (hatId userId : String) (s : AppState)
    (h : hatId ≠ "clear!") :
    wearHat hatId userId s = (s, []) := by
  unfold wearHat
  rw [if_neg h]

/-- Witness for C10_wearHat_noop_for_nonclear: selecting the real wearable
`"hat2"` for user `"u2"` (who is wearing actor 7) changes nothing. -/
theorem C10_wearHat_noop_witness :
    wearHat "hat2" "u2" exSt = (exSt, []) :=
  C10_wearHat_noop_for_nonclear "hat2" "u2" exSt (by decide)
